import Mathlib

/-!
A shallow embedding of the object storage engine in
`openpathsampling/storage/object_storage.py`: the `ObjectStore` class together
with the decorator chain that is installed in `ObjectStore.__init__`
(`saveidx`/`savecache` around `save`, `loadidx`/`loadcache` around `load`),
plus the name lookup (`find`, `find_first`, `_update_name_in_cache`,
`update_name_cache`), index allocation (`free`, `reserve_idx`) and the
numeric conversion helpers (`list_to_numpy`, `list_from_numpy`,
`_parse_var_type_as_np_type`, `load_object`).

Modelling choices:
* One store instance is modelled.  Python objects are heap cells addressed by
  a natural-number object id; `obj.idx[self]` is the `idx` field of the cell,
  `hasattr(obj, '_name')`/`obj._name is None`/`obj._name == s` are the three
  states of `nameAttr : Option (Option String)`.
* The netCDF backing file is modelled by the shared dimension length `dim`
  (`count()` reads it) and total functions for the `_json`, `_name` and `_uid`
  columns; writing a cell at index `i` grows the dimension to `max dim (i+1)`,
  exactly as writing through a netCDF unlimited dimension does.
* The cache is the python dict `self.cache`; its keys are the values the code
  actually uses as keys (integer indices, and potentially strings), modelled
  by `CacheKey`.  `self._free` is the reservation set, `self.name_idx` the
  name-to-index-list dict.
* The serializer (`storage.simplifier`, class `StorableObjectJSON`) is not
  part of the stored sources; it is an external collaborator and is modelled
  as an opaque pair of functions `build`/`toJson`.  None of the claims below
  depends on its behaviour.
* Integer indices passed to `load` are `Int` (python ints can be negative);
  object ids and allocated indices are `Nat`.  Exceptions are modelled with
  `Except`, and a raising call returns the state as mutated up to the raise.
-/

namespace ObjectStorage

/-- Python exceptions raised by the modelled code paths. -/
inductive StoreErr where
  | attributeError : StoreErr
  | valueError : StoreErr
  | keyError : StoreErr
  deriving DecidableEq, Repr

/-- The numpy dtype selected by a conversion (`np.float32`, `np.int32`,
`np.uint8`) or the netCDF variable-length string type. -/
inductive NpType where
  | float32 : NpType
  | int32 : NpType
  | uint8 : NpType
  | str : NpType
  deriving DecidableEq, Repr

/-- Keys of the python dict `self.cache`: the code stores objects under their
integer index; `_update_name_in_cache` additionally probes the dict with a
string name. -/
inductive CacheKey where
  | idx : Nat → CacheKey
  | name : String → CacheKey
  deriving DecidableEq

/-- The storage-relevant attributes of one live python object.
`idx = some i` models `self in obj.idx` with `obj.idx[self] == i`.
`nameAttr = none` models `not hasattr(obj, '_name')`, `some none` models
`obj._name is None`, and `some (some s)` models `obj._name == s`.
`jsonAttr` is the cached serialized form (`obj.json`), `nameFixed` records
that `obj.fix_name()` has been called. -/
structure ObjData where
  idx : Option Nat
  nameAttr : Option (Option String)
  uidAttr : Option String
  jsonAttr : Option String
  nameFixed : Bool
  deriving DecidableEq

instance : Inhabited ObjData := ⟨⟨none, none, none, none, false⟩⟩

/-- The serializer `storage.simplifier` (`StorableObjectJSON`).  It lives in a
module that is not part of the analysed sources, so it is kept opaque:
`build` models `simplifier.build(yaml.load(json_string))` producing a fresh
object, `toJson` models `simplifier.to_json_object(obj, obj.base_cls_name)`. -/
structure Simplifier where
  build : String → ObjData
  toJson : ObjData → String

/-- The mutable state of one `ObjectStore` attached to its storage file:
the store's own dicts and flags, the backing columns of its prefix, and the
heap of live python objects (`heap oid` is the object with id `oid`; `nextId`
is the next fresh id, used when deserialization constructs a new object). -/
structure StoreState where
  dim : Nat
  jsonVar : Nat → String
  nameVar : Nat → String
  uidVar : Nat → String
  cache : CacheKey → Option Nat
  name_idx : String → Option (List Nat)
  reserved : List Nat
  namesLoaded : Bool
  hasName : Bool
  hasUid : Bool
  heap : Nat → ObjData
  nextId : Nat

/-- Overwrite the heap cell of object `oid`. -/
def setObj (s : StoreState) (oid : Nat) (d : ObjData) : StoreState :=
  { s with heap := Function.update s.heap oid d }

/-- `obj.idx[self] = i`. -/
def setObjIdx (s : StoreState) (oid i : Nat) : StoreState :=
  setObj s oid { s.heap oid with idx := some i }

/-- `setattr(obj, 'json', j)`. -/
def setObjJson (s : StoreState) (oid : Nat) (j : String) : StoreState :=
  setObj s oid { s.heap oid with jsonAttr := some j }

/-- `setattr(obj, '_uid', u)`. -/
def setObjUid (s : StoreState) (oid : Nat) (u : String) : StoreState :=
  setObj s oid { s.heap oid with uidAttr := some u }

/-- `setattr(obj, '_name', n)`. -/
def setObjName (s : StoreState) (oid : Nat) (n : String) : StoreState :=
  setObj s oid { s.heap oid with nameAttr := some (some n) }

/-- `obj.fix_name()`: the name becomes read-only. -/
def fixName (s : StoreState) (oid : Nat) : StoreState :=
  setObj s oid { s.heap oid with nameFixed := true }

/-- `self.storage.variables[self.prefix + '_json'][i] = v`: writing through
the unlimited dimension grows it to at least `i + 1`. -/
def writeJsonVar (s : StoreState) (i : Nat) (v : String) : StoreState :=
  { s with jsonVar := Function.update s.jsonVar i v, dim := max s.dim (i + 1) }

/-- `self.storage.variables[self.prefix + '_name'][i] = v`. -/
def writeNameVar (s : StoreState) (i : Nat) (v : String) : StoreState :=
  { s with nameVar := Function.update s.nameVar i v, dim := max s.dim (i + 1) }

/-- `self.storage.variables[self.identifier][i] = v` (the `_uid` column). -/
def writeUidVar (s : StoreState) (i : Nat) (v : String) : StoreState :=
  { s with uidVar := Function.update s.uidVar i v, dim := max s.dim (i + 1) }

/-- `self.cache[k] = obj`. -/
def cacheInsert (s : StoreState) (k : CacheKey) (oid : Nat) : StoreState :=
  { s with cache := Function.update s.cache k (some oid) }

/-- `ObjectStore.count`: `int(len(self.storage.dimensions[self.prefix]))`. -/
def count (s : StoreState) : Nat :=
  s.dim

/-- `ObjectStore.reserve_idx`: `self._free.add(idx)`. -/
def reserve_idx (s : StoreState) (idx : Nat) : StoreState :=
  { s with reserved := s.reserved.insert idx }

/-- The `while idx in self._free: idx += 1` loop of `ObjectStore.free`,
with explicit fuel (the loop terminates because `_free` is finite). -/
def freeFrom : Nat → List Nat → Nat → Nat
  | 0, _, idx => idx
  | fuel + 1, reserved, idx =>
    if idx ∈ reserved then freeFrom fuel reserved (idx + 1) else idx

/-- `ObjectStore.free`: drops stale reservations below `count()` (the python
code reassigns `self._free` to the filtered set), then returns the first
index at or above `count()` that is not reserved. -/
def free (s : StoreState) : Nat × StoreState :=
  let c := count s
  let filtered := s.reserved.filter (fun j => c ≤ j)
  (freeFrom (filtered.length + 1) filtered c, { s with reserved := filtered })

/-- `ObjectStore._update_name_in_cache(name, idx)`.  Note that the source
tests `name not in self.cache` — the object cache, keyed by integer indices —
not `name not in self.name_idx`, and so (since no string key is ever inserted
into the cache by this module) always takes the first branch and overwrites
`self.name_idx[name]` with the one-element list `[idx]`.  The second branch
mirrors the source's `self.name_idx[name].append(idx)`; its guard
`idx not in self.cache[name]` probes a python object and is unreachable. -/
def _update_name_in_cache (s : StoreState) (name : String) (idx : Nat) : StoreState :=
  if name ≠ "" then
    match s.cache (CacheKey.name name) with
    | none => { s with name_idx := Function.update s.name_idx name (some [idx]) }
    | some _ =>
      { s with name_idx :=
          Function.update s.name_idx name (some (((s.name_idx name).getD []) ++ [idx])) }
  else s

/-- `ObjectStore.update_name_cache`: replays the whole `_name` column through
`_update_name_in_cache` once (`self._names_loaded` latches). -/
def update_name_cache (s : StoreState) : StoreState :=
  if s.hasName = true ∧ s.namesLoaded = false then
    let s' := (List.range s.dim).foldl (fun t i => _update_name_in_cache t (s.nameVar i) i) s
    { s' with namesLoaded := true }
  else s

/-- The base `ObjectStore.load` / `load_json`: read the json column, let the
simplifier build a fresh object, attach the json string to it. -/
def load_json (sim : Simplifier) (s : StoreState) (n_idx : Nat) : Nat × StoreState :=
  let jstr := s.jsonVar n_idx
  let d := { sim.build jstr with jsonAttr := some jstr }
  let oid := s.nextId
  (oid, { s with heap := Function.update s.heap oid d, nextId := s.nextId + 1 })

/-- The `loadidx` decorator applied to the base load: negative indices and
indices at or beyond `count()` are soft failures (`None`); otherwise the base
load runs, the object's index mapping is tagged, and `_uid`/`_name` are
attached from their columns when configured. -/
def loadidx_load (sim : Simplifier) (s : StoreState) (idx : Int) :
    Option Nat × StoreState :=
  if idx < 0 then (none, s)
  else
    let n_idx := idx.toNat
    if s.dim ≤ n_idx then (none, s)
    else
      let r := load_json sim s n_idx
      let oid := r.1
      let s1 := setObjIdx r.2 oid n_idx
      let s2 :=
        if s1.hasUid = true ∧ (s1.heap oid).uidAttr = none then
          setObjUid s1 oid (s1.uidVar n_idx)
        else s1
      let s3 :=
        if s2.hasName = true ∧ (s2.heap oid).nameAttr ≠ none then
          fixName (setObjName s2 oid (s2.nameVar n_idx)) oid
        else s2
      (some oid, s3)

/-- The full bound `load` of a cache-enabled store: the `loadcache` decorator
around `loadidx_load`.  Negative indices return `None` before the cache is
consulted; a cache hit returns the cached instance unchanged; after a miss
the loaded object is cached under `obj.idx[self]` and its name is recorded.
(The branch for `obj._name is None` cannot fire: `loadidx` has overwritten
`_name` from the column whenever the attribute exists.) -/
def load (sim : Simplifier) (s : StoreState) (idx : Int) :
    Except StoreErr (Option Nat) × StoreState :=
  if idx < 0 then (.ok none, s)
  else
    match s.cache (CacheKey.idx idx.toNat) with
    | some oid => (.ok (some oid), s)
    | none =>
      match loadidx_load sim s idx with
      | (none, s1) => (.ok none, s1)
      | (some oid, s1) =>
        let s2 := cacheInsert s1 (CacheKey.idx (((s1.heap oid).idx).getD 0)) oid
        if s2.hasName = true then
          match (s2.heap oid).nameAttr with
          | none => (.error .attributeError, s2)
          | some none => (.ok (some oid), s2)
          | some (some n) =>
            if n ≠ "" then (.ok (some oid), _update_name_in_cache s2 n idx.toNat)
            else (.ok (some oid), s2)
        else (.ok (some oid), s2)

/-- `if self.has_uid and hasattr(obj, '_uid'): variables[identifier][idx] =
obj._uid` — the uid write of the base `ObjectStore.save`. -/
def writeUidIfPresent (s : StoreState) (oid idx : Nat) : StoreState :=
  match s.hasUid, (s.heap oid).uidAttr with
  | true, some u => writeUidVar s idx u
  | _, _ => s

/-- The base `ObjectStore.save` / `save_json`: write the `_uid` column when
the object carries a uid, compute and attach `obj.json` unless already
cached on the object, then write the json column at `idx`. -/
def save_base (sim : Simplifier) (s : StoreState) (oid idx : Nat) : StoreState :=
  let s1 := writeUidIfPresent s oid idx
  let s2 :=
    if (s1.heap oid).jsonAttr = none then setObjJson s1 oid (sim.toJson (s1.heap oid))
    else s1
  writeJsonVar s2 idx (((s2.heap oid).jsonAttr).getD "")

/-- `if self.has_uid and hasattr(obj, '_uid') and obj._uid != '': ...` —
the second uid write, performed by the `saveidx` decorator after the
wrapped save. -/
def rewriteUid (s : StoreState) (oid idx : Nat) : StoreState :=
  match s.hasUid, (s.heap oid).uidAttr with
  | true, some u => if u ≠ "" then writeUidVar s idx u else s
  | _, _ => s

/-- The name-column epilogue of the `saveidx` decorator: on a name-enabled
store, an object with `obj._name is None` raises `AttributeError`
("_name needs to be a string for nameable objects."); otherwise the name is
fixed and written to the `_name` column.  An object without a `_name`
attribute is skipped by the `hasattr` guard. -/
def handle_name_column (s : StoreState) (oid idx : Nat) :
    Except StoreErr Nat × StoreState :=
  if s.hasName = true then
    match (s.heap oid).nameAttr with
    | none => (.ok idx, s)
    | some none => (.error .attributeError, s)
    | some (some n) => (.ok idx, writeNameVar (fixName s oid) idx n)
  else (.ok idx, s)

/-- The body of the `saveidx` decorator once the index to use is known:
tag the object, reserve the index, run the wrapped save, re-write the uid
column for nonempty uids, and handle the name column. -/
def saveidx_go (sim : Simplifier) (s : StoreState) (oid idx : Nat) :
    Except StoreErr Nat × StoreState :=
  let s1 := setObjIdx s oid idx
  let s2 := reserve_idx s1 idx
  let s3 := save_base sim s2 oid idx
  let s4 := rewriteUid s3 oid idx
  handle_name_column s4 oid idx

/-- The `saveidx` decorator around the base save: with no explicit index an
already-indexed object returns its index immediately ("has been saved so
quit and do nothing"); a fresh object allocates `self.free()` (which mutates
the reservation set); an explicit integer index is used as given. -/
def saveidx_save (sim : Simplifier) (s : StoreState) (oid : Nat) (idxArg : Option Nat) :
    Except StoreErr Nat × StoreState :=
  match idxArg with
  | none =>
    match (s.heap oid).idx with
    | some i => (.ok i, s)
    | none => saveidx_go sim (free s).2 oid (free s).1
  | some j => saveidx_go sim s oid j

/-- The full bound `save` of a cache-enabled store: the `savecache` decorator
around `saveidx_save`.  After the wrapped save, `idx = obj.idx[self]` is read
back, the object is cached under it, and a nonempty name is recorded in the
name cache.  (When the store is name-enabled and the object has no `_name`
attribute at all, `obj._name` raises `AttributeError` here; the
`obj._name is None` case cannot reach this point because `saveidx` raised,
and is modelled as a no-op — in python it would record the index under the
unusable dict key `None`.) -/
def savecache_tail (s1 : StoreState) (oid : Nat) :
    Except StoreErr Nat × StoreState :=
  let idx := ((s1.heap oid).idx).getD 0
  let s2 := cacheInsert s1 (CacheKey.idx idx) oid
  if s2.hasName = true then
    match (s2.heap oid).nameAttr with
    | none => (.error .attributeError, s2)
    | some none => (.ok idx, s2)
    | some (some n) =>
      if n ≠ "" then (.ok idx, _update_name_in_cache s2 n idx)
      else (.ok idx, s2)
  else (.ok idx, s2)

/-- The full bound `save` of a cache-enabled store: the `savecache` decorator
around `saveidx_save`, followed by the cache/name bookkeeping of
`savecache_tail`. -/
def save (sim : Simplifier) (s : StoreState) (oid : Nat) (idxArg : Option Nat) :
    Except StoreErr Nat × StoreState :=
  match saveidx_save sim s oid idxArg with
  | (.error e, s1) => (.error e, s1)
  | (.ok _, s1) => savecache_tail s1 oid

/-- `ObjectStore.first`: `self.load(0)`. -/
def first (sim : Simplifier) (s : StoreState) :
    Except StoreErr (Option Nat) × StoreState :=
  load sim s 0

/-- `ObjectStore.last`: `self.load(self.count() - 1)`. -/
def last (sim : Simplifier) (s : StoreState) :
    Except StoreErr (Option Nat) × StoreState :=
  load sim s ((count s : Int) - 1)

/-- `self[list_of_idx]`: `[self.load(idx) for idx in item]`, threading the
store state through the successive loads. -/
def loadMany (sim : Simplifier) (s : StoreState) :
    List Nat → Except StoreErr (List (Option Nat)) × StoreState
  | [] => (.ok [], s)
  | i :: rest =>
    match load sim s (i : Int) with
    | (.error e, s1) => (.error e, s1)
    | (.ok o, s1) =>
      match loadMany sim s1 rest with
      | (.error e, s2) => (.error e, s2)
      | (.ok os, s2) => (.ok (o :: os), s2)

/-- `ObjectStore.find(name)`: on a name-enabled store, refresh the name cache
if the name is unknown, then load every index recorded under the name
(`self[self.name_idx[name]]`); a still-unknown name raises `KeyError`.
Non-named stores return `[]`. -/
def find (sim : Simplifier) (s : StoreState) (name : String) :
    Except StoreErr (List (Option Nat)) × StoreState :=
  if s.hasName = true then
    let s' := if s.name_idx name = none then update_name_cache s else s
    match s'.name_idx name with
    | none => (.error .keyError, s')
    | some idxs => loadMany sim s' idxs
  else (.ok [], s)

/-- `ObjectStore.find_first(name)`: like `find` but loads only the first
recorded index; an empty index list falls through to `None`. -/
def find_first (sim : Simplifier) (s : StoreState) (name : String) :
    Except StoreErr (Option Nat) × StoreState :=
  if s.hasName = true then
    let s' := if s.name_idx name = none then update_name_cache s else s
    match s'.name_idx name with
    | none => (.error .keyError, s')
    | some idxs =>
      match idxs with
      | [] => (.ok none, s')
      | i :: _ => load sim s' (i : Int)
  else (.ok none, s)

/-- Two's-complement truncation performed by `astype(np.int32)`. -/
def int32cast (n : Int) : Int :=
  (n + 2 ^ 31) % 2 ^ 32 - 2 ^ 31

/-- The dtype each branch of `ObjectStore.list_to_numpy` converts to: the
`astype` target of the branch selected by `value_type` (any other string is
treated as an object type and hits the final `astype(np.int32)` branch). -/
def list_to_numpy_dtype (value_type : String) : NpType :=
  if value_type = "int" then NpType.float32
  else if value_type = "float" then NpType.float32
  else if value_type = "bool" then NpType.uint8
  else if value_type = "index" then NpType.int32
  else if value_type = "length" then NpType.int32
  else NpType.int32

/-- `ObjectStore._parse_var_type_as_np_type`: the returned `types[var_type]`
dictionary; an unknown `var_type` raises `KeyError` (`none`). -/
def _parse_var_type_as_np_type (var_type : String) : Option NpType :=
  if var_type = "float" then some NpType.float32
  else if var_type = "int" then some NpType.int32
  else if var_type = "index" then some NpType.int32
  else if var_type = "length" then some NpType.int32
  else if var_type = "bool" then some NpType.uint8
  else if var_type = "str" then some NpType.str
  else none

/-- The list comprehension of the object branch of `list_to_numpy`:
`[-1 if value is None and allow_empty is True else value.idx[self] for value
in data]`.  `None.idx` raises `AttributeError` when `allow_empty` is false;
`value.idx[self]` raises `KeyError` when the object carries no index. -/
def obj_ref_values (s : StoreState) : List (Option Nat) → Bool →
    Except StoreErr (List Int)
  | [], _ => .ok []
  | none :: rest, ae =>
    if ae then (obj_ref_values s rest ae).map (fun l => (-1 : Int) :: l)
    else .error .attributeError
  | some oid :: rest, ae =>
    match (s.heap oid).idx with
    | none => .error .keyError
    | some i => (obj_ref_values s rest ae).map (fun l => (i : Int) :: l)

/-- The object branch of `ObjectStore.list_to_numpy`: the reference list is
built and then cast with `astype(np.int32)`. -/
def list_to_numpy_obj (s : StoreState) (data : List (Option Nat)) (allow_empty : Bool) :
    Except StoreErr (List Int) :=
  (obj_ref_values s data allow_empty).map (fun l => l.map int32cast)

/-- The object branch of `ObjectStore.list_from_numpy`:
`[key_store.load(obj_idx) if allow_empty is False or obj_idx >= 0 else None
for obj_idx in values.tolist()]`, threading the referenced store's state
through the successive loads. -/
def list_from_numpy_obj (sim : Simplifier) (s : StoreState) :
    List Int → Bool → Except StoreErr (List (Option Nat)) × StoreState
  | [], _ => (.ok [], s)
  | v :: rest, ae =>
    if ae = false ∨ 0 ≤ v then
      match load sim s v with
      | (.error e, s1) => (.error e, s1)
      | (.ok o, s1) =>
        match list_from_numpy_obj sim s1 rest ae with
        | (.error e, s2) => (.error e, s2)
        | (.ok os, s2) => (.ok (o :: os), s2)
    else
      match list_from_numpy_obj sim s rest ae with
      | (.error e, s2) => (.error e, s2)
      | (.ok os, s2) => (.ok (none :: os), s2)

/-- `ObjectStore.load_object`, after the `load_variable(name + '_idx', idx)`
read has produced the stored reference `index`: a negative sentinel yields
`None`, otherwise the referenced store's `load(index)` runs. -/
def load_object (sim : Simplifier) (s : StoreState) (index : Int) :
    Except StoreErr (Option Nat) × StoreState :=
  if index < 0 then (.ok none, s)
  else load sim s index

/-! ## Concrete instances used by the witnesses -/

/-- A trivial serializer for concrete runs. -/
def trivSim : Simplifier where
  build := fun _ => default
  toJson := fun _ => "o"

/-- A freshly initialized store with no name/uid columns and object `0`
present in memory but unsaved. -/
def emptyStore : StoreState where
  dim := 0
  jsonVar := fun _ => ""
  nameVar := fun _ => ""
  uidVar := fun _ => ""
  cache := fun _ => none
  name_idx := fun _ => none
  reserved := []
  namesLoaded := false
  hasName := false
  hasUid := false
  heap := fun _ => default
  nextId := 0

/-! ## Index allocation: `free` skips the reservation set -/

theorem filter_length_mono (l : List Nat) (p q : Nat → Bool)
    (h : ∀ a, p a = true → q a = true) :
    (l.filter p).length ≤ (l.filter q).length := by
  induction l with
  | nil => simp
  | cons a t ih =>
    cases hpa : p a with
    | true =>
      simp only [List.filter_cons, hpa, h a hpa]
      simp only [if_true, List.length_cons]
      omega
    | false =>
      cases hqa : q a with
      | true =>
        simp [List.filter_cons, hpa, hqa]
        omega
      | false =>
        simp [List.filter_cons, hpa, hqa]
        exact ih

theorem filter_succ_length_lt (l : List Nat) (n : Nat) (h : n ∈ l) :
    (l.filter (fun j => n + 1 ≤ j)).length < (l.filter (fun j => n ≤ j)).length := by
  induction l with
  | nil => cases h
  | cons a t ih =>
    rcases List.mem_cons.mp h with rfl | hmem
    · have h1 : ¬ (n + 1 ≤ n) := by omega
      have hmono := filter_length_mono t (fun j => decide (n + 1 ≤ j))
        (fun j => decide (n ≤ j)) (by intro a ha; simp only [decide_eq_true_eq] at ha ⊢; omega)
      simp only [List.filter_cons, decide_eq_true_eq, h1, if_false, le_refl, if_true,
        List.length_cons]
      omega
    · by_cases hc : n + 1 ≤ a
      · have hc2 : n ≤ a := by omega
        simp only [List.filter_cons, decide_eq_true_eq, hc, hc2, if_true, List.length_cons]
        exact Nat.succ_lt_succ (ih hmem)
      · by_cases hc2 : n ≤ a
        · simp only [List.filter_cons, decide_eq_true_eq, hc, hc2, if_false, if_true,
            List.length_cons]
          exact Nat.lt_succ_of_lt (ih hmem)
        · simp only [List.filter_cons, decide_eq_true_eq, hc, hc2, if_false]
          exact ih hmem

theorem freeFrom_spec (l : List Nat) :
    ∀ fuel idx, (l.filter (fun j => idx ≤ j)).length < fuel →
      freeFrom fuel l idx ∉ l ∧ idx ≤ freeFrom fuel l idx ∧
        ∀ m, idx ≤ m → m < freeFrom fuel l idx → m ∈ l := by
  intro fuel
  induction fuel with
  | zero => intro idx h; omega
  | succ fuel ih =>
    intro idx h
    by_cases hm : idx ∈ l
    · have hlt := filter_succ_length_lt l idx hm
      obtain ⟨h1, h2, h3⟩ := ih (idx + 1) (by omega)
      have heq : freeFrom (fuel + 1) l idx = freeFrom fuel l (idx + 1) := by
        simp only [freeFrom, if_pos hm]
      rw [heq]
      refine ⟨h1, by omega, ?_⟩
      intro m hm1 hm2
      by_cases he : m = idx
      · exact he ▸ hm
      · exact h3 m (by omega) hm2
    · have heq : freeFrom (fuel + 1) l idx = idx := by
        simp only [freeFrom, if_neg hm]
      rw [heq]
      exact ⟨hm, Nat.le_refl idx, fun m h1 h2 => absurd (lt_of_le_of_lt h1 h2) (lt_irrefl idx)⟩

theorem free_spec (s : StoreState) :
    count s ≤ (free s).1 ∧ (free s).1 ∉ s.reserved ∧
      ∀ m, count s ≤ m → m < (free s).1 → m ∈ s.reserved := by
  have hfuel : ((s.reserved.filter (fun j => count s ≤ j)).filter
      (fun j => count s ≤ j)).length <
      (s.reserved.filter (fun j => count s ≤ j)).length + 1 :=
    Nat.lt_succ_of_le (List.length_filter_le _ _)
  obtain ⟨h1, h2, h3⟩ :=
    freeFrom_spec (s.reserved.filter (fun j => count s ≤ j)) _ _ hfuel
  have hfree1 : (free s).1 =
      freeFrom ((s.reserved.filter (fun j => count s ≤ j)).length + 1)
        (s.reserved.filter (fun j => count s ≤ j)) (count s) := rfl
  rw [hfree1]
  refine ⟨h2, ?_, ?_⟩
  · intro hmem
    exact h1 (List.mem_filter.mpr ⟨hmem, by simpa using h2⟩)
  · intro m hm1 hm2
    exact (List.mem_filter.mp (h3 m hm1 hm2)).1

/-- Claim C9: `free()` returns the smallest index that is at least `count()`
and does not lie in the reservation set, and once an index has been passed
to `reserve_idx` (which `saveidx` does before writing the payload), a nested
`free()` can never allocate that index again. -/
theorem free_skips_reserved (s : StoreState) :
    count s ≤ (free s).1 ∧ (free s).1 ∉ s.reserved ∧
      (∀ m, count s ≤ m → m < (free s).1 → m ∈ s.reserved) ∧
      ∀ i : Nat, (free (reserve_idx s i)).1 ≠ i := by
  obtain ⟨a, b, c⟩ := free_spec s
  refine ⟨a, b, c, ?_⟩
  intro i heq
  obtain ⟨-, b', -⟩ := free_spec (reserve_idx s i)
  apply b'
  rw [heq]
  simp only [reserve_idx]
  exact List.mem_insert_self i s.reserved

/-- Witness for `free_skips_reserved`: on a fresh store whose index `0` has
just been reserved, `free()` does not hand out `0`. -/
theorem free_skips_reserved_witness :
    (free (reserve_idx emptyStore 0)).1 ≠ 0 :=
  (free_skips_reserved emptyStore).2.2.2 0

/-! ## Out-of-range loads are soft failures -/

/-- Invariant of reachable store states: the cache only holds indices below
`count()` (every cache insertion happens at an index whose row has just been
written, which grows the dimension past it). -/
def cacheBounded (s : StoreState) : Prop :=
  ∀ k : Nat, s.dim ≤ k → s.cache (CacheKey.idx k) = none

theorem load_not_found (sim : Simplifier) (s : StoreState) (hwf : cacheBounded s)
    (idx : Int) (h : idx < 0 ∨ (count s : Int) ≤ idx) :
    load sim s idx = (.ok none, s) := by
  rcases h with hneg | hge
  · simp [load, hneg]
  · have h0 : 0 ≤ idx := le_trans (Int.natCast_nonneg _) hge
    have hneg : ¬ idx < 0 := not_lt.mpr h0
    have hnat : s.dim ≤ idx.toNat := (Int.le_toNat h0).mpr hge
    simp [load, hneg, hwf idx.toNat hnat, loadidx_load, hnat]

/-- Claim C3: `load(idx)` with a negative integer index, or one at or beyond
`count()`, returns the not-found result `None` without raising and leaves
the store state unchanged; in particular `load(count())` and `load(-1)` are
both not found. -/
theorem load_out_of_range_soft (sim : Simplifier) (s : StoreState)
    (hwf : cacheBounded s) (idx : Int) (h : idx < 0 ∨ (count s : Int) ≤ idx) :
    load sim s idx = (.ok none, s) :=
  load_not_found sim s hwf idx h

/-- Witness for `load_out_of_range_soft`: `load(-1)` on a concrete store. -/
theorem load_out_of_range_soft_witness :
    load trivSim emptyStore (-1) = (.ok none, emptyStore) :=
  load_out_of_range_soft trivSim emptyStore (fun _ _ => rfl) (-1) (Or.inl (by decide))

/-- Claim C10: on a store with `count() == 0`, both `first()` (which loads
index `0`) and `last()` (which loads `count() - 1 == -1`) return `None`
without raising. -/
theorem empty_store_first_last_none (sim : Simplifier) (s : StoreState)
    (h0 : count s = 0) (hwf : cacheBounded s) :
    first sim s = (.ok none, s) ∧ last sim s = (.ok none, s) := by
  constructor
  · exact load_not_found sim s hwf 0 (Or.inr (by rw [h0]; simp))
  · have hm1 : (count s : Int) - 1 = -1 := by rw [h0]; simp
    unfold last
    rw [hm1]
    exact load_not_found sim s hwf (-1) (Or.inl (by decide))

/-- Witness for `empty_store_first_last_none` on a concrete empty store. -/
theorem empty_store_first_last_none_witness :
    first trivSim emptyStore = (.ok none, emptyStore) ∧
      last trivSim emptyStore = (.ok none, emptyStore) :=
  empty_store_first_last_none trivSim emptyStore rfl (fun _ _ => rfl)

/-! ## Effect lemmas for the save pipeline -/

theorem writeUidIfPresent_effects (s : StoreState) (oid idx : Nat) :
    (writeUidIfPresent s oid idx).heap = s.heap ∧
      (writeUidIfPresent s oid idx).cache = s.cache ∧
      (writeUidIfPresent s oid idx).hasName = s.hasName ∧
      (writeUidIfPresent s oid idx).nameVar = s.nameVar ∧
      (writeUidIfPresent s oid idx).name_idx = s.name_idx ∧
      (writeUidIfPresent s oid idx).reserved = s.reserved := by
  unfold writeUidIfPresent
  split <;> simp [writeUidVar]

theorem rewriteUid_effects (s : StoreState) (oid idx : Nat) :
    (rewriteUid s oid idx).heap = s.heap ∧
      (rewriteUid s oid idx).cache = s.cache ∧
      (rewriteUid s oid idx).hasName = s.hasName ∧
      (rewriteUid s oid idx).nameVar = s.nameVar ∧
      (rewriteUid s oid idx).name_idx = s.name_idx ∧
      (rewriteUid s oid idx).reserved = s.reserved := by
  unfold rewriteUid
  split
  · split <;> simp [writeUidVar]
  · simp

theorem save_base_effects (sim : Simplifier) (s : StoreState) (oid idx : Nat) :
    ((save_base sim s oid idx).heap oid).idx = ((s.heap oid).idx) ∧
      ((save_base sim s oid idx).heap oid).nameAttr = ((s.heap oid).nameAttr) ∧
      (save_base sim s oid idx).cache = s.cache ∧
      (save_base sim s oid idx).hasName = s.hasName ∧
      (save_base sim s oid idx).nameVar = s.nameVar ∧
      (save_base sim s oid idx).name_idx = s.name_idx ∧
      (save_base sim s oid idx).reserved = s.reserved := by
  obtain ⟨h1, h2, h3, h4, h5, h6⟩ := writeUidIfPresent_effects s oid idx
  by_cases hj : (s.heap oid).jsonAttr = none <;>
    simp [save_base, h1, hj, writeJsonVar, setObjJson, setObj, h2, h3, h4, h5, h6]

theorem update_name_in_cache_effects (s : StoreState) (n : String) (i : Nat) :
    (_update_name_in_cache s n i).heap = s.heap ∧
      (_update_name_in_cache s n i).cache = s.cache ∧
      (_update_name_in_cache s n i).hasName = s.hasName ∧
      (_update_name_in_cache s n i).jsonVar = s.jsonVar ∧
      (_update_name_in_cache s n i).dim = s.dim ∧
      (_update_name_in_cache s n i).nameVar = s.nameVar ∧
      (_update_name_in_cache s n i).reserved = s.reserved := by
  unfold _update_name_in_cache
  split
  · split <;> simp
  · simp

theorem handle_name_spec (s : StoreState) (oid idx : Nat) :
    (((handle_name_column s oid idx).2).heap oid).idx = ((s.heap oid).idx) ∧
      (((handle_name_column s oid idx).2).heap oid).nameAttr = ((s.heap oid).nameAttr) ∧
      ((handle_name_column s oid idx).2).hasName = s.hasName ∧
      ((handle_name_column s oid idx).2).reserved = s.reserved ∧
      ((handle_name_column s oid idx).1 = .ok idx ∨
        ((handle_name_column s oid idx).1 = .error .attributeError ∧
          s.hasName = true ∧ (s.heap oid).nameAttr = some none)) ∧
      (s.hasName = true → (s.heap oid).nameAttr = some none →
        handle_name_column s oid idx = (.error .attributeError, s)) := by
  unfold handle_name_column
  cases hn : s.hasName with
  | false => simp [hn]
  | true =>
    cases hna : (s.heap oid).nameAttr with
    | none => simp [hn, hna]
    | some o =>
      cases o with
      | none => simp [hn, hna]
      | some n => simp [hn, hna, writeNameVar, fixName, setObj]

theorem saveidx_go_spec (sim : Simplifier) (s : StoreState) (oid idx : Nat) :
    (((saveidx_go sim s oid idx).2).heap oid).idx = some idx ∧
      ((saveidx_go sim s oid idx).2).hasName = s.hasName ∧
      idx ∈ ((saveidx_go sim s oid idx).2).reserved ∧
      (((saveidx_go sim s oid idx).2).heap oid).nameAttr = (s.heap oid).nameAttr ∧
      ((saveidx_go sim s oid idx).1 = .ok idx ∨
        ((saveidx_go sim s oid idx).1 = .error .attributeError ∧
          s.hasName = true ∧ (s.heap oid).nameAttr = some none)) ∧
      (s.hasName = true → (s.heap oid).nameAttr = some none →
        (saveidx_go sim s oid idx).1 = .error .attributeError ∧
          ((saveidx_go sim s oid idx).2).nameVar = s.nameVar) := by
  have hA1 : ((setObjIdx s oid idx).heap oid).idx = some idx := by
    simp [setObjIdx, setObj]
  have hA2 : ((setObjIdx s oid idx).heap oid).nameAttr = (s.heap oid).nameAttr := by
    simp [setObjIdx, setObj]
  obtain ⟨hC1, hC2, hC3, hC4, hC5, hC6, hC7⟩ :=
    save_base_effects sim (reserve_idx (setObjIdx s oid idx) idx) oid idx
  obtain ⟨hD1, hD2, hD3, hD4, hD5, hD6⟩ :=
    rewriteUid_effects (save_base sim (reserve_idx (setObjIdx s oid idx) idx) oid idx) oid idx
  have hBheap : (reserve_idx (setObjIdx s oid idx) idx).heap = (setObjIdx s oid idx).heap := by
    simp [reserve_idx]
  have hD : rewriteUid (save_base sim (reserve_idx (setObjIdx s oid idx) idx) oid idx) oid idx =
      (saveidx_go sim s oid idx).2 → True := fun _ => trivial
  obtain ⟨hH1, hH2, hH3, hH4, hH5, hH6⟩ :=
    handle_name_spec
      (rewriteUid (save_base sim (reserve_idx (setObjIdx s oid idx) idx) oid idx) oid idx)
      oid idx
  have hgo : saveidx_go sim s oid idx =
      handle_name_column
        (rewriteUid (save_base sim (reserve_idx (setObjIdx s oid idx) idx) oid idx) oid idx)
        oid idx := rfl
  have hDidx : ((rewriteUid (save_base sim (reserve_idx (setObjIdx s oid idx) idx) oid idx)
      oid idx).heap oid).idx = some idx := by
    rw [hD1, hC1, hBheap, hA1]
  have hDname : ((rewriteUid (save_base sim (reserve_idx (setObjIdx s oid idx) idx) oid idx)
      oid idx).heap oid).nameAttr = (s.heap oid).nameAttr := by
    rw [hD1, hC2, hBheap, hA2]
  have hDhasName : (rewriteUid (save_base sim (reserve_idx (setObjIdx s oid idx) idx) oid idx)
      oid idx).hasName = s.hasName := by
    rw [hD3, hC4]
    simp [reserve_idx, setObjIdx, setObj]
  have hDreserved : idx ∈ (rewriteUid (save_base sim (reserve_idx (setObjIdx s oid idx) idx)
      oid idx) oid idx).reserved := by
    rw [hD6, hC7]
    simp only [reserve_idx]
    exact List.mem_insert_self idx _
  have hDnameVar : (rewriteUid (save_base sim (reserve_idx (setObjIdx s oid idx) idx) oid idx)
      oid idx).nameVar = s.nameVar := by
    rw [hD4, hC5]
    simp [reserve_idx, setObjIdx, setObj]
  rw [hgo]
  refine ⟨by rw [hH1]; exact hDidx, by rw [hH3]; exact hDhasName,
    by rw [hH4]; exact hDreserved, by rw [hH2]; exact hDname, ?_, ?_⟩
  · rcases hH5 with h5 | ⟨he, hdn, hdna⟩
    · exact Or.inl h5
    · exact Or.inr ⟨he, by rw [← hDhasName]; exact hdn, by rw [← hDname]; exact hdna⟩
  · intro hn hna
    have herr := hH6 (by rw [hDhasName]; exact hn) (by rw [hDname]; exact hna)
    rw [herr]
    exact ⟨rfl, hDnameVar⟩

theorem savecache_tail_spec (s1 : StoreState) (oid k : Nat)
    (hidx : (s1.heap oid).idx = some k) :
    (savecache_tail s1 oid = (.error .attributeError, cacheInsert s1 (CacheKey.idx k) oid) ∧
        s1.hasName = true ∧ (s1.heap oid).nameAttr = none) ∨
      ((savecache_tail s1 oid).1 = .ok k ∧
        ((savecache_tail s1 oid).2).heap = s1.heap ∧
        ((savecache_tail s1 oid).2).cache =
          Function.update s1.cache (CacheKey.idx k) (some oid) ∧
        ((savecache_tail s1 oid).2).jsonVar = s1.jsonVar ∧
        ((savecache_tail s1 oid).2).dim = s1.dim ∧
        ((savecache_tail s1 oid).2).hasName = s1.hasName ∧
        ((savecache_tail s1 oid).2).reserved = s1.reserved ∧
        (s1.hasName = true → (s1.heap oid).nameAttr ≠ none)) := by
  unfold savecache_tail
  rw [hidx]
  cases hn : s1.hasName with
  | false =>
    right
    simp [cacheInsert, hn]
  | true =>
    cases hna : (s1.heap oid).nameAttr with
    | none =>
      left
      simp [cacheInsert, hn, hna]
    | some o =>
      cases o with
      | none =>
        right
        simp [cacheInsert, hn, hna]
      | some n =>
        right
        by_cases hne : n = ""
        · simp [cacheInsert, hn, hna, hne]
        · obtain ⟨g1, g2, g3, g4, g5, g6, g7⟩ :=
            update_name_in_cache_effects (cacheInsert s1 (CacheKey.idx k) oid) n k
          simp [cacheInsert, hn, hna, hne] at g1 g2 g3 g4 g5 g7 ⊢
          simp [g1, g2, g3, g4, g5, g7]

theorem saveidx_save_none_saved (sim : Simplifier) (s : StoreState) (oid i0 : Nat)
    (hix : (s.heap oid).idx = some i0) :
    saveidx_save sim s oid none = (.ok i0, s) := by
  unfold saveidx_save
  rw [hix]

theorem saveidx_save_none_fresh (sim : Simplifier) (s : StoreState) (oid : Nat)
    (hix : (s.heap oid).idx = none) :
    saveidx_save sim s oid none = saveidx_go sim (free s).2 oid (free s).1 := by
  unfold saveidx_save
  rw [hix]

theorem save_eq_ok (sim : Simplifier) (s : StoreState) (oid : Nat) (a : Option Nat)
    (k : Nat) (s' : StoreState) (hsv : saveidx_save sim s oid a = (.ok k, s')) :
    save sim s oid a = savecache_tail s' oid := by
  unfold save
  rw [hsv]

theorem save_eq_error (sim : Simplifier) (s : StoreState) (oid : Nat) (a : Option Nat)
    (e : StoreErr) (s' : StoreState)
    (hsv : saveidx_save sim s oid a = (.error e, s')) :
    save sim s oid a = (.error e, s') := by
  unfold save
  rw [hsv]

theorem saveidx_go_ok (sim : Simplifier) (s : StoreState) (oid idx k : Nat)
    (s' : StoreState) (h : saveidx_go sim s oid idx = (.ok k, s')) :
    k = idx ∧ (s'.heap oid).idx = some idx := by
  obtain ⟨h1, -, -, -, h5, -⟩ := saveidx_go_spec sim s oid idx
  constructor
  · rcases h5 with h5 | ⟨h5, -, -⟩ <;> rw [h] at h5 <;> simp at h5
    exact h5
  · rw [h] at h1
    exact h1

theorem saveidx_save_ok_idx (sim : Simplifier) (s : StoreState) (oid : Nat)
    (a : Option Nat) (k : Nat) (s' : StoreState)
    (h : saveidx_save sim s oid a = (.ok k, s')) :
    (s'.heap oid).idx = some k := by
  cases a with
  | some j =>
    have hj : saveidx_go sim s oid j = (.ok k, s') := h
    obtain ⟨hk, hidx⟩ := saveidx_go_ok sim s oid j k s' hj
    rw [hk]
    exact hidx
  | none =>
    cases hix : (s.heap oid).idx with
    | some i0 =>
      rw [saveidx_save_none_saved sim s oid i0 hix] at h
      obtain ⟨hf, hs⟩ := Prod.mk.injEq .. ▸ h
      simp only [Except.ok.injEq] at hf
      rw [← hs, hix, hf]
    | none =>
      rw [saveidx_save_none_fresh sim s oid hix] at h
      obtain ⟨hk, hidx⟩ := saveidx_go_ok sim (free s).2 oid (free s).1 k s' h
      rw [hk]
      exact hidx

theorem save_ok_state (sim : Simplifier) (s : StoreState) (oid i : Nat) (s₁ : StoreState)
    (h : save sim s oid none = (.ok i, s₁)) :
    (s₁.heap oid).idx = some i ∧
      s₁.cache (CacheKey.idx i) = some oid ∧
      (s₁.hasName = true → (s₁.heap oid).nameAttr ≠ none) := by
  rcases hsv : saveidx_save sim s oid none with ⟨r, s'⟩
  cases r with
  | error e =>
    rw [save_eq_error sim s oid none e s' hsv] at h
    exact absurd (congrArg Prod.fst h) (by simp)
  | ok k =>
    rw [save_eq_ok sim s oid none k s' hsv] at h
    have hidx' : (s'.heap oid).idx = some k := saveidx_save_ok_idx sim s oid none k s' hsv
    rcases savecache_tail_spec s' oid k hidx' with ⟨heq, hn, hna⟩ |
      ⟨t1, t2, t3, t4, t5, t6, t7, t8⟩
    · rw [heq] at h
      exact absurd (congrArg Prod.fst h) (by simp)
    · have hfst := congrArg Prod.fst h
      simp only [] at hfst
      rw [t1] at hfst
      injection hfst with hik
      have hsnd := congrArg Prod.snd h
      simp only [] at hsnd
      subst hik
      refine ⟨?_, ?_, ?_⟩
      · rw [← hsnd, t2]
        exact hidx'
      · rw [← hsnd, t3]
        simp
      · intro hnm
        rw [← hsnd, t2]
        apply t8
        rw [← t6, hsnd]
        exact hnm

theorem load_cache_hit (sim : Simplifier) (s : StoreState) (k oid : Nat)
    (h : s.cache (CacheKey.idx k) = some oid) :
    load sim s (k : Int) = (.ok (some oid), s) := by
  unfold load
  rw [if_neg (not_lt.mpr (Int.natCast_nonneg k))]
  rw [Int.toNat_natCast, h]

/-! ## Claims about `save` -/

/-- Claim C1: after `save(o)` on a cache-enabled store succeeds with index
`i`, `load(i)` is a cache hit: it returns the very same in-memory instance
`o` and leaves the entire store state (heap included) unchanged, so no
second live instance for that index is ever created. -/
theorem save_load_returns_same_instance (sim : Simplifier) (s : StoreState)
    (oid i : Nat) (s₁ : StoreState) (h : save sim s oid none = (.ok i, s₁)) :
    load sim s₁ (i : Int) = (.ok (some oid), s₁) := by
  obtain ⟨-, hcache, -⟩ := save_ok_state sim s oid i s₁ h
  exact load_cache_hit sim s₁ i oid hcache

/-- Witness for `save_load_returns_same_instance`: a concrete save of object
`0` into a fresh store, followed by a load of the returned index `0`. -/
theorem save_load_returns_same_instance_witness :
    load trivSim (save trivSim emptyStore 0 none).2 ((0 : Nat) : Int) =
      (.ok (some 0), (save trivSim emptyStore 0 none).2) :=
  save_load_returns_same_instance trivSim emptyStore 0 0
    (save trivSim emptyStore 0 none).2 rfl

/-- Claim C2: a save of an already-saved object returns the same index
immediately — the second `save(o)` yields the index of the first, does not
serialize again (the heap, hence `obj.json`, is untouched) and writes no
second row (the json column and the dimension length are unchanged). -/
theorem save_idempotent (sim : Simplifier) (s : StoreState) (oid i : Nat)
    (s₁ : StoreState) (h : save sim s oid none = (.ok i, s₁)) :
    (save sim s₁ oid none).1 = .ok i ∧
      ((save sim s₁ oid none).2).jsonVar = s₁.jsonVar ∧
      ((save sim s₁ oid none).2).dim = s₁.dim ∧
      ((save sim s₁ oid none).2).heap = s₁.heap := by
  obtain ⟨hidx, hcache, hname⟩ := save_ok_state sim s oid i s₁ h
  have hsv : saveidx_save sim s₁ oid none = (.ok i, s₁) :=
    saveidx_save_none_saved sim s₁ oid i hidx
  rw [save_eq_ok sim s₁ oid none i s₁ hsv]
  rcases savecache_tail_spec s₁ oid i hidx with ⟨heq, hn, hna⟩ |
    ⟨t1, t2, t3, t4, t5, t6, t7, t8⟩
  · exact absurd hna (hname hn)
  · exact ⟨t1, t4, t5, t2⟩

/-- Witness for `save_idempotent`: saving object `0` twice into a fresh
store returns index `0` both times, with the json column untouched. -/
theorem save_idempotent_witness :
    (save trivSim (save trivSim emptyStore 0 none).2 0 none).1 = .ok 0 :=
  (save_idempotent trivSim emptyStore 0 0 (save trivSim emptyStore 0 none).2 rfl).1

/-- Counterexample to claim C7 as stated: an object already holding index
`0` is re-saved with the explicit conflicting index `5`; the call returns
`.ok 5` — no error of any kind is raised — and the object's index mapping
has silently moved to `5`. -/
theorem save_explicit_conflicting_idx_no_error_cex :
    (save trivSim emptyStore 0 none).1 = .ok 0 ∧
      (save trivSim (save trivSim emptyStore 0 none).2 0 (some 5)).1 = .ok 5 ∧
      (((save trivSim (save trivSim emptyStore 0 none).2 0 (some 5)).2).heap 0).idx =
        some 5 :=
  ⟨rfl, rfl, rfl⟩

/-- Claim C7 (amended): re-saving an object under an explicit conflicting
integer index does not raise; `saveidx` silently re-indexes — the object's
index mapping is overwritten with `j`, `j` is reserved, and `j` is returned
(shown here for saves whose name handling succeeds: non-named stores, or
objects carrying a string name). -/
theorem save_explicit_conflicting_reindex (sim : Simplifier) (s : StoreState)
    (oid i j : Nat) (hprev : (s.heap oid).idx = some i)
    (hname : s.hasName = false ∨ ∃ n, (s.heap oid).nameAttr = some (some n)) :
    (save sim s oid (some j)).1 = .ok j ∧
      (((save sim s oid (some j)).2).heap oid).idx = some j ∧
      j ∈ ((save sim s oid (some j)).2).reserved := by
  obtain ⟨hg1, hg2, hg3, hg4, hg5, -⟩ := saveidx_go_spec sim s oid j
  have hok : (saveidx_go sim s oid j).1 = .ok j := by
    rcases hg5 with h5 | ⟨-, hdn, hdna⟩
    · exact h5
    · rcases hname with hf | ⟨n, hn⟩
      · rw [hf] at hdn
        exact absurd hdn (by simp)
      · rw [hn] at hdna
        exact absurd hdna (by simp)
  have hpair : saveidx_go sim s oid j = (.ok j, (saveidx_go sim s oid j).2) := by
    rw [← hok]
  have hsv : saveidx_save sim s oid (some j) = (.ok j, (saveidx_go sim s oid j).2) := hpair
  rw [save_eq_ok sim s oid (some j) j (saveidx_go sim s oid j).2 hsv]
  rcases savecache_tail_spec (saveidx_go sim s oid j).2 oid j hg1 with ⟨heq, hn', hna'⟩ |
    ⟨t1, t2, t3, t4, t5, t6, t7, t8⟩
  · exfalso
    rcases hname with hf | ⟨n, hn⟩
    · rw [hg2, hf] at hn'
      exact absurd hn' (by simp)
    · rw [hg4, hn] at hna'
      exact absurd hna' (by simp)
  · refine ⟨t1, ?_, ?_⟩
    · rw [t2]
      exact hg1
    · rw [t7]
      exact hg3

/-- Witness for `save_explicit_conflicting_reindex` at the concrete inputs
of the counterexample. -/
theorem save_explicit_conflicting_reindex_witness :
    (save trivSim (save trivSim emptyStore 0 none).2 0 (some 5)).1 = .ok 5 :=
  (save_explicit_conflicting_reindex trivSim (save trivSim emptyStore 0 none).2
    0 0 5 rfl (Or.inl rfl)).1

/-- Claim C8: on a name-enabled store, saving a not-yet-indexed object whose
`_name` attribute is set but holds `None` raises `AttributeError` to the
caller, and the on-disk `_name` column is left untouched (no null or
placeholder name is written). -/
theorem save_unset_name_raises (sim : Simplifier) (s : StoreState) (oid : Nat)
    (hn : s.hasName = true) (hattr : (s.heap oid).nameAttr = some none)
    (hfresh : (s.heap oid).idx = none) :
    (save sim s oid none).1 = .error .attributeError ∧
      ((save sim s oid none).2).nameVar = s.nameVar := by
  have hfs : saveidx_save sim s oid none =
      saveidx_go sim (free s).2 oid (free s).1 :=
    saveidx_save_none_fresh sim s oid hfresh
  have hfheap : (free s).2.heap = s.heap := rfl
  have hfname : (free s).2.hasName = s.hasName := rfl
  have hfnameVar : (free s).2.nameVar = s.nameVar := rfl
  obtain ⟨-, -, -, -, -, hg6⟩ := saveidx_go_spec sim (free s).2 oid (free s).1
  obtain ⟨herr, hnv⟩ := hg6 (by rw [hfname]; exact hn) (by rw [hfheap]; exact hattr)
  have hpair : saveidx_go sim (free s).2 oid (free s).1 =
      (.error .attributeError, (saveidx_go sim (free s).2 oid (free s).1).2) := by
    rw [← herr]
  have hsv : saveidx_save sim s oid none =
      (.error .attributeError, (saveidx_go sim (free s).2 oid (free s).1).2) := by
    rw [hfs, ← hpair]
  rw [save_eq_error sim s oid none .attributeError _ hsv]
  exact ⟨rfl, hnv.trans hfnameVar⟩

/-- A name-enabled store whose in-memory object `0` has `_name` set to
`None` and is not yet saved. -/
def namedStoreNoneObj : StoreState :=
  { emptyStore with
    hasName := true,
    heap := fun _ => ⟨none, some none, none, none, false⟩ }

/-- Witness for `save_unset_name_raises` at a concrete store and object. -/
theorem save_unset_name_raises_witness :
    (save trivSim namedStoreNoneObj 0 none).1 = .error .attributeError :=
  (save_unset_name_raises trivSim namedStoreNoneObj 0 rfl rfl rfl).1

/-! ## Name lookup after duplicate names (claim C4) -/

/-- A name-enabled store with every in-memory object named `"x"` and not
yet saved; objects `0` and `1` are used below. -/
def dupNameStore : StoreState :=
  { emptyStore with
    hasName := true,
    heap := fun _ => ⟨none, some (some "x"), none, none, false⟩ }

/-- The store after saving object `0` (index 0) and then object `1`
(index 1), both named `"x"`. -/
def dupNameAfter : StoreState :=
  (save trivSim (save trivSim dupNameStore 0 none).2 1 none).2

/-- Claim C4 evaluated on the code at its failing input: two objects named
`"x"` are saved at indices `0` and `1`, yet `find("x")` returns only the
second object and `find_first("x")` returns the second-saved object — not
both / the first, as the claim (and the functions' own docstrings) state.
The cause: `_update_name_in_cache` tests `name not in self.cache` (the
index-keyed object cache) instead of `self.name_idx`, so the second save
overwrites `name_idx["x"]` with `[1]`. -/
theorem find_after_duplicate_name_returns_only_second :
    (save trivSim dupNameStore 0 none).1 = .ok 0 ∧
      (save trivSim (save trivSim dupNameStore 0 none).2 1 none).1 = .ok 1 ∧
      dupNameAfter.name_idx "x" = some [1] ∧
      (find trivSim dupNameAfter "x").1 = .ok [some 1] ∧
      (find_first trivSim dupNameAfter "x").1 = .ok (some 1) :=
  ⟨rfl, rfl, rfl, rfl, rfl⟩

/-! ## Fixed-width numeric encoding (claim C5) -/

/-- Claim C5 evaluated on the code: `list_to_numpy` converts `'float'` data
to `np.float32`, `'bool'` to `np.uint8` and `'index'`/`'length'` to
`np.int32` as the claim states — but its `'int'` branch converts with
`astype(np.float32)`, while the code's own type table
`_parse_var_type_as_np_type` declares `'int'` as `np.int32`.  Integer data
therefore passes through a 32-bit float, not a 32-bit signed integer. -/
theorem list_to_numpy_int_dtype_is_float32 :
    list_to_numpy_dtype "int" = NpType.float32 ∧
      _parse_var_type_as_np_type "int" = some NpType.int32 ∧
      list_to_numpy_dtype "float" = NpType.float32 ∧
      list_to_numpy_dtype "bool" = NpType.uint8 ∧
      list_to_numpy_dtype "index" = NpType.int32 ∧
      list_to_numpy_dtype "length" = NpType.int32 ∧
      _parse_var_type_as_np_type "float" = some NpType.float32 ∧
      _parse_var_type_as_np_type "bool" = some NpType.uint8 ∧
      _parse_var_type_as_np_type "index" = some NpType.int32 ∧
      _parse_var_type_as_np_type "length" = some NpType.int32 :=
  ⟨rfl, rfl, rfl, rfl, rfl, rfl, rfl, rfl, rfl, rfl⟩

/-! ## Reference sentinel correctness (claim C6) -/

/-- Claim C6: a `None` reference is encoded as the sentinel `-1` by
`list_to_numpy`; on decoding, `list_from_numpy` maps a negative stored
index back to `None` without ever calling `load` (so never to the object at
index `0`), and a non-negative stored index is reconstructed by `load` on
the referenced store; `load_object` behaves the same way. -/
theorem reference_sentinel_roundtrip (sim : Simplifier) (s : StoreState) :
    list_to_numpy_obj s [none] true = .ok [-1] ∧
      list_from_numpy_obj sim s [-1] true = (.ok [none], s) ∧
      (∀ k : Int, 0 ≤ k →
        list_from_numpy_obj sim s [k] true =
          (((load sim s k).1).map (fun o => [o]), (load sim s k).2)) ∧
      (∀ k : Int, k < 0 → load_object sim s k = (.ok none, s)) ∧
      (∀ k : Int, 0 ≤ k → load_object sim s k = load sim s k) := by
  refine ⟨rfl, rfl, ?_, ?_, ?_⟩
  · intro k hk
    have h1 : list_from_numpy_obj sim s [k] true =
        (match load sim s k with
          | (.error e, s1) => (.error e, s1)
          | (.ok o, s1) => (.ok [o], s1)) := by
      simp only [list_from_numpy_obj]
      rw [if_pos (Or.inr hk)]
    rw [h1]
    rcases load sim s k with ⟨r, s1⟩
    cases r <;> simp [Except.map]
  · intro k hk
    simp [load_object, hk]
  · intro k hk
    simp [load_object, not_lt.mpr hk]

/-- Witness for `reference_sentinel_roundtrip`: the sentinel `-1` decodes
to `None` on a concrete store, leaving the store untouched. -/
theorem reference_sentinel_roundtrip_witness :
    list_from_numpy_obj trivSim emptyStore [-1] true = (.ok [none], emptyStore) :=
  (reference_sentinel_roundtrip trivSim emptyStore).2.1

end ObjectStorage
